import Mathlib

/-!
Shallow embedding of the Sentinel AI orchestration core:
the short-term memory service (src/utils/agent_memory.py), the supervisor
routing decision and agent nodes (src/graph/graph_builder.py), the
conversation control loop (src/utils/orchestrator.py), and the event bus
(integration/event_bus.py).

Conventions of the embedding:
* timestamps are integers (seconds since an arbitrary epoch); `timedelta(hours=h)`
  becomes `h * 3600` and `timedelta(minutes=m)` becomes `m * 60`;
* nondeterministic inputs of the code (current clock, generated uuid4 values,
  the MongoDB-assigned id, and whether a MongoDB operation raises
  `PyMongoError`) are explicit parameters;
* a Python `try/except PyMongoError` block is embedded by branching on the
  boolean parameter that tells whether the guarded operation raised;
* Python string falsiness (`x or y` treating both `None` and `""` as falsy)
  is embedded by `pyOrStr` / `pyTruthyStr` / `pyOrTtl` below.
-/

namespace Sentinel

/-- Python substring containment `needle in hay`, on character lists. -/
def containsSub : (needle hay : List Char) → Bool
  | needle, [] => needle.isEmpty
  | needle, c :: t => needle.isPrefixOf (c :: t) || containsSub needle t

/-- Python `s.lower()`, character by character (every string compared after
lower-casing in this code is ASCII, where the two notions agree). -/
def pyLower (s : String) : List Char := s.toList.map Char.toLower

/-- Python `a or b` on optional strings: `None` and the empty string are falsy. -/
def pyOrStr (a b : Option String) : Option String :=
  match a with
  | some s => if s = "" then b else some s
  | none => b

/-- Python truthiness of an optional string. -/
def pyTruthyStr : Option String → Bool
  | some s => !(s == "")
  | none => false

/-- Python `ttl_hours or DEFAULT_TTL_HOURS`: `None` and `0` are falsy. -/
def pyOrTtl (a : Option Int) (b : Int) : Int :=
  match a with
  | some n => if n = 0 then b else n
  | none => b

/-- Content values stored inside a memory entry payload (the code stores
strings, lists of strings, booleans and integer durations in these dicts). -/
inductive CVal where
  | str (v : String)
  | strList (vs : List String)
  | boolean (v : Bool)
  | intVal (v : Int)
  | null
deriving DecidableEq, Repr

/-- Value of `content.get(key, default)` restricted to string payloads, as used
by `get_context_for_agent` (the entries it renders were written by the
`store_command` / `store_agent_action` helpers, which put strings there). -/
def CVal.getStr : Option CVal → String
  | some (.str v) => v
  | _ => ""

/-- Value of `content.get("tools_used", [])`. -/
def CVal.getStrList : Option CVal → List String
  | some (.strList vs) => vs
  | _ => []

/-- String constants of `class MemoryType` in src/utils/agent_memory.py. -/
def MemoryType.COMMAND : String := "command"

def MemoryType.AGENT_ACTION : String := "agent_action"

def MemoryType.TOOL_CALL : String := "tool_call"

def MemoryType.RESULT : String := "result"

def MemoryType.CONTEXT : String := "context"

def MemoryType.ERROR : String := "error"

/-- One memory document, as built by `AgentMemory.store`.  `doc_id` models the
`_id` field (assigned by MongoDB on insert, or a uuid4 in the fallback). -/
structure MemoryDoc where
  user_id : Option String
  session_id : Option String
  timestamp : Int
  type : String
  agent : Option String
  content : List (String × CVal)
  expires_at : Int
  doc_id : String
deriving DecidableEq, Repr

/-- State of one `AgentMemory` instance.  `mongodb_available` is true when
pymongo imported, a connection string was present and the client connected,
in which case `memory_collection` is set: the code always tests
`self.mongodb_available and self.memory_collection`, so one flag suffices.
`mongo_collection` is the contents of the MongoDB collection and
`memory_fallback` is the `_memory_fallback` list.  `context_user_id` models
the user id read from the `user_context.json` file by
`_get_user_id_from_context` (`none` when the file is absent or unreadable). -/
structure AgentMemoryState where
  mongodb_available : Bool
  mongo_collection : List MemoryDoc
  memory_fallback : List MemoryDoc
  current_session_id : Option String
  current_user_id : Option String
  context_user_id : Option String
deriving DecidableEq, Repr

/-- `AgentMemory.DEFAULT_TTL_HOURS`. -/
def DEFAULT_TTL_HOURS : Int := 24

/-- The memory document built at the top of `AgentMemory.store` (before the
branch choosing the tier), with `doc_id` filled in by the chosen tier. -/
def mkDoc (st : AgentMemoryState) (now : Int) (doc_id : String)
    (memory_type : String) (content : List (String × CVal))
    (agent : Option String) (session_id : Option String)
    (user_id : Option String) (ttl_hours : Option Int) : MemoryDoc :=
  let sid := pyOrStr session_id st.current_session_id
  let uid := pyOrStr (pyOrStr user_id st.current_user_id) st.context_user_id
  let ttl := pyOrTtl ttl_hours DEFAULT_TTL_HOURS
  { user_id := uid
    session_id := sid
    timestamp := now
    type := memory_type
    agent := agent
    content := content
    expires_at := now + ttl * 3600
    doc_id := doc_id }

/-- The cleanup at the end of the fallback branch of `store`: the list is cut
to its last 100 entries (`self._memory_fallback[-100:]`) when it has grown
past 100. -/
def capFallback (fb1 : List MemoryDoc) : List MemoryDoc :=
  if fb1.length > 100 then fb1.drop (fb1.length - 100) else fb1

/-- `AgentMemory.store`.  `insertOk` tells whether `insert_one` succeeds
(false embeds a raised `PyMongoError`, which the code catches and falls
through to the in-memory tier); `mongoId` is the id MongoDB would assign and
`uuid` the uuid4 generated for the fallback path.  Returns the new state and
the returned memory id. -/
def store (st : AgentMemoryState) (now : Int) (insertOk : Bool)
    (mongoId uuid : String) (memory_type : String)
    (content : List (String × CVal)) (agent : Option String)
    (session_id : Option String) (user_id : Option String)
    (ttl_hours : Option Int) : AgentMemoryState × Option String :=
  if st.mongodb_available && insertOk then
    ({ st with mongo_collection := st.mongo_collection
        ++ [mkDoc st now mongoId memory_type content agent session_id user_id ttl_hours] },
     some mongoId)
  else
    ({ st with memory_fallback := capFallback (st.memory_fallback
        ++ [mkDoc st now uuid memory_type content agent session_id user_id ttl_hours]) },
     some uuid)

/-- The filter of the MongoDB query issued by `get_recent_memories`:
field equality on `user_id`, `timestamp` at or after the cutoff, and `type`
in `memory_types` when that list was given. -/
def matchesQuery (uid : Option String) (cutoff : Int) (memory_types : List String)
    (m : MemoryDoc) : Bool :=
  m.user_id == uid && cutoff ≤ m.timestamp &&
    (memory_types.isEmpty || memory_types.contains m.type)

/-- Stable descending sort by timestamp: `sorted(key=timestamp, reverse=True)`
in the fallback tier and `.sort("timestamp", DESCENDING)` in the MongoDB tier. -/
def sortByTimestampDesc (l : List MemoryDoc) : List MemoryDoc :=
  List.insertionSort (fun a b => b.timestamp ≤ a.timestamp) l

/-- The MongoDB branch of `get_recent_memories`: `find(query)` with a sort by
timestamp descending and a result limit. -/
def queryMongoTier (st : AgentMemoryState) (uid : Option String) (cutoff : Int)
    (limit : Nat) (memory_types : List String) : List MemoryDoc :=
  (sortByTimestampDesc
    (st.mongo_collection.filter (matchesQuery uid cutoff memory_types))).take limit

/-- The in-memory fallback block of `get_recent_memories`: filter by user and
cutoff, then by type when a type list was given, sort descending, cut to
`limit`. -/
def queryFallbackTier (st : AgentMemoryState) (uid : Option String) (cutoff : Int)
    (limit : Nat) (memory_types : List String) : List MemoryDoc :=
  (sortByTimestampDesc
    (if !memory_types.isEmpty then
      (st.memory_fallback.filter
        (fun m => m.user_id == uid && cutoff ≤ m.timestamp)).filter
        (fun m => memory_types.contains m.type)
    else
      st.memory_fallback.filter
        (fun m => m.user_id == uid && cutoff ≤ m.timestamp))).take limit

/-- `AgentMemory.get_recent_memories`.  `queryOk` tells whether the MongoDB
`find` succeeds; on failure (a caught `PyMongoError`) or when MongoDB is
unavailable the code runs the in-memory fallback block.  An empty
`memory_types` list embeds the falsy default `None`. -/
def get_recent_memories (st : AgentMemoryState) (now : Int) (queryOk : Bool)
    (user_id : Option String) (minutes : Int) (limit : Nat)
    (memory_types : List String) : List MemoryDoc :=
  if st.mongodb_available && queryOk then
    queryMongoTier st (pyOrStr (pyOrStr user_id st.current_user_id) st.context_user_id)
      (now - minutes * 60) limit memory_types
  else
    queryFallbackTier st (pyOrStr (pyOrStr user_id st.current_user_id) st.context_user_id)
      (now - minutes * 60) limit memory_types

/-- The background deletion performed by the MongoDB TTL index that
`_create_indexes` places on `expires_at` with `expireAfterSeconds=0`:
documents whose `expires_at` is at or before the current time are removed
from the collection.  The in-memory fallback list has no counterpart. -/
def mongoTtlSweep (now : Int) (st : AgentMemoryState) : AgentMemoryState :=
  { st with mongo_collection := st.mongo_collection.filter (fun m => now < m.expires_at) }

/-- Python slicing `s[:100]`, used to truncate rendered outputs. -/
def truncate100 (s : String) : String := String.mk (s.toList.take 100)

/-- The body of the rendering loop of `get_context_for_agent` for one memory
entry: `none` embeds `continue` (entry skipped), `some line` a line appended
to `context_lines`. -/
def contextLineFor (agent : Option String) (include_other_agents : Bool)
    (m : MemoryDoc) : Option String :=
  if !include_other_agents && pyTruthyStr m.agent && !(m.agent == agent) then
    none
  else if m.type == MemoryType.COMMAND then
    some ("• User asked: \"" ++ CVal.getStr (m.content.lookup "command") ++ "\"")
  else if m.type == MemoryType.AGENT_ACTION then
    let action_agent := (pyOrStr m.agent (some "Unknown")).getD "Unknown"
    let output := truncate100 (CVal.getStr (m.content.lookup "output"))
    let tools := CVal.getStrList (m.content.lookup "tools_used")
    if !tools.isEmpty then
      some ("• " ++ action_agent ++ " agent used " ++ String.intercalate ", " tools
            ++ ": " ++ output)
    else
      some ("• " ++ action_agent ++ " agent responded: " ++ output)
  else if m.type == MemoryType.RESULT then
    some ("• Result: " ++ truncate100 (CVal.getStr (m.content.lookup "result")))
  else
    none

/-- `AgentMemory.get_context_for_agent`: renders the recent
command/agent-action/result entries (fetched with `limit = max_entries * 2`,
then cut to `max_entries` and reversed so the oldest comes first) into a
labeled block, or returns the empty string when nothing qualifies.  The code
defaults are `minutes = 15` and `max_entries = 5`. -/
def get_context_for_agent (st : AgentMemoryState) (now : Int) (queryOk : Bool)
    (agent : Option String) (include_other_agents : Bool)
    (minutes : Int) (max_entries : Nat) : String :=
  let memories := get_recent_memories st now queryOk none minutes (max_entries * 2)
    [MemoryType.COMMAND, MemoryType.AGENT_ACTION, MemoryType.RESULT]
  if memories.isEmpty then ""
  else
    let context_lines := ["[Recent Activity]"] ++
      ((memories.take max_entries).reverse.filterMap
        (contextLineFor agent include_other_agents))
    if context_lines.length ≤ 1 then ""
    else String.intercalate "\n" (context_lines ++ [""])

/-! ### Routing (src/graph/graph_builder.py) -/

/-- The fixed label set checked by `supervisor_node`. -/
def routing_labels : List String :=
  ["Browser", "Music", "Meeting", "System", "Productivity", "FINISH"]

/-- `supervisor_node`: the raw classifier output is stripped; an empty or
unmatched result defaults to `FINISH`, otherwise the stripped label is the
message appended to the graph state. -/
def supervisor_node (raw : String) : String :=
  let result := raw.trim
  if result = "" || !routing_labels.contains result then "FINISH" else result

/-- A message in the LangGraph state: `base` is a LangChain `BaseMessage`
(the initial `HumanMessage`), `tupleMsg` the `("ai", text)` pairs appended by
agent nodes, and `plain` the bare label strings appended by `supervisor_node`.
Only `base` satisfies `isinstance(message, BaseMessage)`. -/
inductive GMessage where
  | base (content : String)
  | tupleMsg (role : String) (content : String)
  | plain (content : String)
deriving DecidableEq, Repr

/-- The `isinstance(message, BaseMessage)` test. -/
def isBaseMessage : GMessage → Bool
  | .base _ => true
  | _ => false

/-- The `.content` attribute of a message. -/
def GMessage.text : GMessage → String
  | .base c => c
  | .tupleMsg _ c => c
  | .plain c => c

/-- The backwards search of `agent_node` for the last `BaseMessage` in the
state. -/
def lastBaseMessage (messages : List GMessage) : Option GMessage :=
  messages.reverse.find? isBaseMessage

/-- The closure returned by `create_agent_node`.  `mem` is the process-wide
`AgentMemory` singleton (the closure body never references it — nothing in
src/graph/graph_builder.py imports or calls into src/utils/agent_memory.py)
and `invoke` is the ReAct agent graph, mapping
the content of the message it is handed to the content of its final message.
With no `BaseMessage` in the state the code raises `ValueError`. -/
def agent_node (_mem : AgentMemoryState) (invoke : String → String)
    (agent_name : String) (state : List GMessage) : Except String (List GMessage) :=
  match lastBaseMessage state with
  | none => .error "No valid message found in state for the agent to process."
  | some m =>
      .ok [GMessage.tupleMsg "ai" ("(" ++ agent_name ++ " agent): " ++ invoke m.text)]

/-! ### Conversation loop (src/utils/orchestrator.py) -/

/-- The `question_keywords` list of `is_follow_up_question`. -/
def question_keywords : List String :=
  ["could you", "can you", "would you", "what", "when", "where", "which",
   "who", "how", "do you want", "would you like", "please provide",
   "please tell", "let me know", "tell me", "specify", "?"]

/-- `is_follow_up_question`: false on a falsy response, otherwise true
exactly when the lower-cased response contains one of the fixed keywords as a
substring.  The argument is optional because `listen_command` can yield
`None`. -/
def is_follow_up_question (response : Option String) : Bool :=
  if !pyTruthyStr response then false
  else
    question_keywords.any (fun k => containsSub k.toList (pyLower (response.getD "")))

/-- The `exit_phrases` list of the follow-up branch of `run_sentinel_agent`. -/
def exit_phrases : List String :=
  ["cancel", "nevermind", "never mind", "stop", "quit", "exit"]

/-- `any(phrase in follow_up.lower() for phrase in exit_phrases)`. -/
def hasExitPhrase (follow_up : String) : Bool :=
  exit_phrases.any (fun p => containsSub p.toList (pyLower follow_up))

/-- `" ".join(conversation_history)`. -/
def joinHistory (history : List String) : String := String.intercalate " " history

/-- `tts.speak(response, ...)` is reached only under `if response:`. -/
def speakIfNonempty (spoken : List String) (response : String) : List String :=
  if response = "" then spoken else spoken ++ [response]

/-- Why the inner conversation loop ended: the `turn_count < max_turns`
condition failed, no (or a falsy) follow-up was captured, a cancellation
phrase was heard, or the response was not a follow-up question. -/
inductive EndReason where
  | turnLimit
  | noFollowup
  | cancelled
  | complete
deriving DecidableEq, Repr

/-- Observable outcome of the inner conversation loop: the final
`conversation_history`, the final `turn_count`, the history snapshots passed
to `route_to_langgraph` (one per loop iteration, in order), every string
handed to `tts.speak`, and the reason the loop ended. -/
structure LoopResult where
  history : List String
  turn_count : Nat
  routed : List (List String)
  spoken : List String
  reason : EndReason
deriving DecidableEq, Repr

/-- The inner `while turn_count < max_turns` loop of `run_sentinel_agent`,
embedded with a structural fuel argument on top of the faithful loop guard
(`run_conversation` supplies `fuel = max_turns`, which the guard can never
outrun because `turn_count` grows by one per continuing iteration).  `route`
is `route_to_langgraph` applied to the joined history, `cap i` the result of
the i-th follow-up `listen_command` call. -/
def convLoopF (route : String → String) (cap : Nat → Option String)
    (maxTurns : Nat) :
    Nat → List String → Nat → Nat → List (List String) → List String → LoopResult
  | 0, history, tc, _i, routed, spoken =>
      ⟨history, tc, routed, spoken, .turnLimit⟩
  | fuel + 1, history, tc, i, routed, spoken =>
      if tc < maxTurns then
        if is_follow_up_question (some (route (joinHistory history))) then
          if !pyTruthyStr (cap i) then
            ⟨history, tc, routed ++ [history],
             speakIfNonempty spoken (route (joinHistory history)), .noFollowup⟩
          else if hasExitPhrase ((cap i).getD "") then
            ⟨history, tc, routed ++ [history],
             speakIfNonempty spoken (route (joinHistory history))
               ++ ["Okay, cancelled."], .cancelled⟩
          else
            convLoopF route cap maxTurns fuel (history ++ [(cap i).getD ""])
              (tc + 1) (i + 1) (routed ++ [history])
              (speakIfNonempty spoken (route (joinHistory history)))
        else
          ⟨history, tc, routed ++ [history],
           speakIfNonempty spoken (route (joinHistory history)), .complete⟩
      else ⟨history, tc, routed, spoken, .turnLimit⟩

/-- One full conversation for a recognized command: `conversation_history`
starts as `[command]` and `turn_count` as `0`. -/
def run_conversation (route : String → String) (cap : Nat → Option String)
    (maxTurns : Nat) (command : String) : LoopResult :=
  convLoopF route cap maxTurns maxTurns [command] 0 0 [] []

/-! ### Event bus (integration/event_bus.py) -/

/-- An `Event` dataclass instance.  Event types and statuses are embedded by
their string values; `data` payloads by an optional string. -/
structure EventRec where
  etype : String
  status : Option String
  data : Option String
  error : Option String
  timestamp : Int
deriving DecidableEq, Repr

/-- A subscriber callback: `Except` embeds a callback that raises. -/
def Callback : Type := EventRec → Except String Unit

/-- State of the `EventBus` singleton: the two FIFO queues and the
`_subscribers` dict (event type to callback list). -/
structure EventBusState where
  frontend_queue : List EventRec
  backend_queue : List EventRec
  subscribers : List (String × List Callback)

/-- The callbacks `emit` iterates over: `self._subscribers[event_type]` when
the key is present, nothing otherwise. -/
def subscribersFor (bus : EventBusState) (etype : String) : List Callback :=
  match bus.subscribers.lookup etype with
  | some cbs => cbs
  | none => []

/-- One observable action of `emit`, in program order. -/
inductive EmitAction where
  | enqueue (e : EventRec)
  | callbackRun (outcome : Except String Unit)

/-- The subscriber loop of `emit`: each callback is called inside
`try/except Exception`, so a raising callback has its outcome recorded and
the loop continues with the remaining callbacks. -/
def runCallbacks (event : EventRec) : List Callback → List EmitAction
  | [] => []
  | cb :: rest =>
      match cb event with
      | .ok _ => EmitAction.callbackRun (.ok ()) :: runCallbacks event rest
      | .error e => EmitAction.callbackRun (.error e) :: runCallbacks event rest

/-- `EventBus.emit`: builds the event, puts it on the frontend queue, then
notifies the subscribers for its type.  Returns the new bus state and the
trace of actions in program order; the function is total — no callback
exception escapes it. -/
def emit (bus : EventBusState) (etype : String) (status data error : Option String)
    (now : Int) : EventBusState × List EmitAction :=
  let event : EventRec := ⟨etype, status, data, error, now⟩
  ({ bus with frontend_queue := bus.frontend_queue ++ [event] },
   EmitAction.enqueue event :: runCallbacks event (subscribersFor bus etype))

/-! ### Shared helper lemmas -/

/-- The Python containment scan decides contiguous-sublist membership. -/
theorem containsSub_iff (needle : List Char) :
    ∀ hay : List Char, containsSub needle hay = true ↔ needle <:+: hay := by
  intro hay
  induction hay with
  | nil =>
      simp only [containsSub, List.isEmpty_iff, List.infix_nil]
  | cons c t ih =>
      simp only [containsSub, Bool.or_eq_true, List.isPrefixOf_iff_prefix, ih,
        List.infix_cons_iff]

/-- Membership survives the sort-then-limit pipeline backwards. -/
theorem mem_of_mem_sortTake {m : MemoryDoc} {l : List MemoryDoc} {limit : Nat}
    (h : m ∈ (sortByTimestampDesc l).take limit) : m ∈ l :=
  (List.mem_insertionSort _).mp (List.mem_of_mem_take h)

/-- When the limit is at least the list length, the sort-then-limit pipeline
keeps every member. -/
theorem mem_sortTake_of_le {m : MemoryDoc} {l : List MemoryDoc} {limit : Nat}
    (hlen : l.length ≤ limit) (hm : m ∈ l) : m ∈ (sortByTimestampDesc l).take limit := by
  have hperm := List.perm_insertionSort
    (fun a b : MemoryDoc => b.timestamp ≤ a.timestamp) l
  have hlen2 : (sortByTimestampDesc l).length ≤ limit := by
    rw [sortByTimestampDesc, hperm.length_eq]; exact hlen
  rw [List.take_of_length_le hlen2]
  exact (List.mem_insertionSort _).mpr hm

/-- The subscriber loop of `emit` runs every callback: the trace records one
outcome per subscribed callback, raising or not. -/
theorem runCallbacks_length (event : EventRec) (cbs : List Callback) :
    (runCallbacks event cbs).length = cbs.length := by
  induction cbs with
  | nil => rfl
  | cons cb rest ih =>
      unfold runCallbacks
      cases h : cb event <;> simp [h, ih]

/-- The fallback cap never makes the list longer. -/
theorem capFallback_length_le (l : List MemoryDoc) : (capFallback l).length ≤ l.length := by
  unfold capFallback
  by_cases hl : l.length > 100
  · rw [if_pos hl, List.length_drop]
    omega
  · rw [if_neg hl]

/-- The freshly appended entry survives the fallback cap (the cap drops from
the front). -/
theorem mem_capFallback_concat (fb : List MemoryDoc) (d : MemoryDoc) :
    d ∈ capFallback (fb ++ [d]) := by
  unfold capFallback
  by_cases hl : (fb ++ [d]).length > 100
  · rw [if_pos hl]
    have hk : (fb ++ [d]).length - 100 ≤ fb.length := by
      simp only [List.length_append, List.length_cons, List.length_nil]
      omega
    rw [List.drop_append_of_le_length hk]
    exact List.mem_append.mpr (Or.inr (List.mem_singleton.mpr rfl))
  · rw [if_neg hl]
    exact List.mem_append.mpr (Or.inr (List.mem_singleton.mpr rfl))

/-! ### Claim theorems -/

/-- C2: for every raw classifier output, `supervisor_node` strips it and
checks it against the fixed label set; any non-member (empty, multi-word,
wrong case) resolves to `FINISH`, and an exact member is returned
unchanged. -/
theorem supervisor_fail_closed (raw : String) :
    supervisor_node raw =
      if routing_labels.contains raw.trim then raw.trim else "FINISH" := by
  by_cases h : routing_labels.contains raw.trim
  · have hmem : raw.trim ∈ routing_labels := by simpa using h
    have hne : ¬(raw.trim = "") := by
      intro he
      rw [he] at hmem
      revert hmem
      decide
    simp [supervisor_node, hmem, hne]
  · have hmem : raw.trim ∉ routing_labels := by simpa using h
    simp [supervisor_node, hmem]

/-- C7: follow-up detection is a pure function of the response text: it
returns true exactly when the lower-cased response contains one of the fixed
keywords or the question mark as a substring, and returns false on a null or
empty response, so every keyword-free response ends the conversation. -/
theorem follow_up_is_keyword_scan :
    (∀ r : String, is_follow_up_question (some r) = true ↔
        ∃ k ∈ question_keywords, k.toList <:+: pyLower r)
    ∧ is_follow_up_question none = false
    ∧ is_follow_up_question (some "") = false := by
  refine ⟨fun r => ?_, rfl, rfl⟩
  by_cases hr : r = ""
  · subst hr
    simp only [← containsSub_iff]
    decide
  · simp [is_follow_up_question, pyTruthyStr, hr, List.any_eq_true, containsSub_iff]

/-- Closed instance of `follow_up_is_keyword_scan`: a question is detected
through the keyword "could you", the null and empty responses are not. -/
theorem follow_up_is_keyword_scan_witness :
    is_follow_up_question (some "Could you tell me which day?") = true
    ∧ is_follow_up_question none = false :=
  ⟨(follow_up_is_keyword_scan.1 "Could you tell me which day?").mpr
      ⟨"could you", by decide, by rw [← containsSub_iff]; decide⟩,
   follow_up_is_keyword_scan.2.1⟩

/-- C10: `emit` enqueues the constructed event on the frontend queue before
any subscriber callback runs, and the per-callback `try/except` keeps a
raising callback from escaping `emit` or from stopping the remaining
callbacks: the trace starts with the enqueue action followed by one recorded
outcome per subscriber, and `emit` always returns normally. -/
theorem emit_enqueue_first_callbacks_caught (bus : EventBusState) (etype : String)
    (status data error : Option String) (now : Int) :
    (emit bus etype status data error now).1.frontend_queue
        = bus.frontend_queue ++ [⟨etype, status, data, error, now⟩]
    ∧ (emit bus etype status data error now).1.backend_queue = bus.backend_queue
    ∧ (emit bus etype status data error now).2
        = EmitAction.enqueue ⟨etype, status, data, error, now⟩
            :: runCallbacks ⟨etype, status, data, error, now⟩ (subscribersFor bus etype)
    ∧ (runCallbacks ⟨etype, status, data, error, now⟩ (subscribersFor bus etype)).length
        = (subscribersFor bus etype).length :=
  ⟨rfl, rfl, rfl, runCallbacks_length _ _⟩

/-- C3: `store` never raises and always returns a non-null entry id; when
MongoDB is unavailable or the insert raises, the entry goes to the in-process
fallback list — which stays capped at 100 entries with the oldest evicted
first (the new state keeps a suffix of the old list plus the new entry, whose
last element is the new entry) — and the returned id is the fresh uuid. -/
theorem store_never_raises_returns_id (st : AgentMemoryState) (now : Int)
    (insertOk : Bool) (mongoId uuid : String) (memory_type : String)
    (content : List (String × CVal)) (agent session_id user_id : Option String)
    (ttl_hours : Option Int) :
    (store st now insertOk mongoId uuid memory_type content agent session_id
        user_id ttl_hours).2.isSome = true
    ∧ (st.mongodb_available = false ∨ insertOk = false →
        (store st now insertOk mongoId uuid memory_type content agent session_id
            user_id ttl_hours).2 = some uuid
        ∧ (store st now insertOk mongoId uuid memory_type content agent session_id
            user_id ttl_hours).1.memory_fallback <:+
            st.memory_fallback
              ++ [mkDoc st now uuid memory_type content agent session_id user_id ttl_hours]
        ∧ (store st now insertOk mongoId uuid memory_type content agent session_id
            user_id ttl_hours).1.memory_fallback.getLast?
            = some (mkDoc st now uuid memory_type content agent session_id user_id ttl_hours)
        ∧ (store st now insertOk mongoId uuid memory_type content agent session_id
            user_id ttl_hours).1.memory_fallback.length ≤ 100) := by
  have capSuffix : ∀ fb1 : List MemoryDoc, capFallback fb1 <:+ fb1 := by
    intro fb1
    unfold capFallback
    by_cases hlen : fb1.length > 100
    · rw [if_pos hlen]; exact List.drop_suffix _ _
    · rw [if_neg hlen]
  have capLast : ∀ (fb : List MemoryDoc) (d : MemoryDoc),
      (capFallback (fb ++ [d])).getLast? = some d := by
    intro fb d
    unfold capFallback
    by_cases hlen : (fb ++ [d]).length > 100
    · rw [if_pos hlen]
      have hk : (fb ++ [d]).length - 100 ≤ fb.length := by
        simp only [List.length_append, List.length_cons, List.length_nil]
        omega
      rw [List.drop_append_of_le_length hk]
      exact List.getLast?_concat _
    · rw [if_neg hlen]
      exact List.getLast?_concat _
  have capLen : ∀ fb1 : List MemoryDoc, (capFallback fb1).length ≤ 100 := by
    intro fb1
    unfold capFallback
    by_cases hlen : fb1.length > 100
    · rw [if_pos hlen]
      rw [List.length_drop]
      omega
    · rw [if_neg hlen]
      omega
  by_cases hav : (st.mongodb_available && insertOk) = true
  · constructor
    · simp [store, hav]
    · intro hdisj
      rcases Bool.and_eq_true _ _ |>.mp hav with ⟨h1, h2⟩
      rcases hdisj with h | h
      · rw [h1] at h; cases h
      · rw [h2] at h; cases h
  · unfold store
    rw [if_neg hav]
    exact ⟨rfl, fun _ => ⟨rfl, capSuffix _, capLast _ _, capLen _⟩⟩

/-- C4, counterexample: an entry stored through the fallback tier with
`ttl_hours = -1` has `expires_at = -3600`, in the past at query time `0`, yet
`get_recent_memories` still returns it — the fallback read path compares only
`timestamp` against the window cutoff and never consults `expires_at`, and no
sweep ever removes expired fallback entries. -/
theorem expired_entry_returned_from_fallback :
    (store ⟨false, [], [], none, some "u", none⟩ 0 false "m1" "f1"
        MemoryType.COMMAND [("command", CVal.str "hi")] none (some "s")
        (some "u") (some (-1))).2 = some "f1"
    ∧ get_recent_memories
        (store ⟨false, [], [], none, some "u", none⟩ 0 false "m1" "f1"
          MemoryType.COMMAND [("command", CVal.str "hi")] none (some "s")
          (some "u") (some (-1))).1 0 false (some "u") 30 10 []
        = [⟨some "u", some "s", 0, MemoryType.COMMAND, none,
            [("command", CVal.str "hi")], -3600, "f1"⟩]
    ∧ (-3600 : Int) < 0 := by
  decide

/-- C4, amended: expiry is enforced only in the durable tier, by the MongoDB
TTL index sweep on `expires_at`: once the sweep has run at query time, every
entry the durable tier returns has `expires_at` strictly in the future.  (The
fallback tier has no such mechanism, and a `ttl_hours = 0` argument is coerced
to the 24-hour default by the falsy `or`.) -/
theorem durable_tier_excludes_expired (st : AgentMemoryState) (now : Int)
    (uid : Option String) (minutes : Int) (limit : Nat) (types : List String)
    (hav : st.mongodb_available = true) :
    (get_recent_memories (mongoTtlSweep now st) now true uid minutes limit
        types).all (fun m => decide (now < m.expires_at)) = true := by
  rw [List.all_eq_true]
  intro m hm
  have hb : get_recent_memories (mongoTtlSweep now st) now true uid minutes limit types
      = queryMongoTier (mongoTtlSweep now st)
          (pyOrStr (pyOrStr uid (mongoTtlSweep now st).current_user_id)
            (mongoTtlSweep now st).context_user_id)
          (now - minutes * 60) limit types := by
    unfold get_recent_memories
    rw [show (mongoTtlSweep now st).mongodb_available = true from hav]
    rfl
  rw [hb] at hm
  unfold queryMongoTier at hm
  have h2 := mem_of_mem_sortTake hm
  have h3 := (List.mem_filter.mp h2).1
  exact (List.mem_filter.mp h3).2

/-- Closed instance of `durable_tier_excludes_expired`: a swept durable store
that held one already-expired entry returns nothing stale. -/
theorem durable_tier_excludes_expired_witness :
    (get_recent_memories
        (mongoTtlSweep 0 ⟨true, [⟨some "u", none, 0, "command", none, [], -5, "a"⟩],
          [], none, some "u", none⟩) 0 true (some "u") 30 10 []).all
      (fun m => decide ((0 : Int) < m.expires_at)) = true :=
  durable_tier_excludes_expired
    ⟨true, [⟨some "u", none, 0, "command", none, [], -5, "a"⟩], [], none,
      some "u", none⟩ 0 (some "u") 30 10 [] rfl

/-- C9, counterexample: with `minutes = 0` the cutoff equals the query
instant and the comparison is non-strict, so an entry timestamped exactly at
the query instant is returned — the result is not the empty list for every
store state. -/
theorem minutes_zero_not_always_empty :
    get_recent_memories
        ⟨false, [], [⟨some "u", some "s", 0, "command", none, [], 86400, "f1"⟩],
          none, some "u", none⟩ 0 false (some "u") 0 10 []
      = [⟨some "u", some "s", 0, "command", none, [], 86400, "f1"⟩] := by
  decide

/-- Every document surviving the time filter of the MongoDB query has a
timestamp at or after the cutoff, so the filter empties when everything is
strictly older. -/
theorem filter_query_nil (l : List MemoryDoc) (now : Int)
    (h : ∀ m ∈ l, m.timestamp < now) (uid : Option String) (types : List String) :
    l.filter (matchesQuery uid now types) = [] := by
  rw [List.filter_eq_nil_iff]
  intro a ha hpa
  unfold matchesQuery at hpa
  rcases Bool.and_eq_true _ _ |>.mp hpa with ⟨hpa1, _⟩
  rcases Bool.and_eq_true _ _ |>.mp hpa1 with ⟨_, hts⟩
  exact absurd (of_decide_eq_true hts) (not_le.mpr (h a ha))

/-- Fallback-tier analogue of `filter_query_nil`. -/
theorem filter_fallback_nil (l : List MemoryDoc) (now : Int)
    (h : ∀ m ∈ l, m.timestamp < now) (uid : Option String) :
    l.filter (fun m => m.user_id == uid && now ≤ m.timestamp) = [] := by
  rw [List.filter_eq_nil_iff]
  intro a ha hpa
  rcases Bool.and_eq_true _ _ |>.mp hpa with ⟨_, hts⟩
  exact absurd (of_decide_eq_true hts) (not_le.mpr (h a ha))

/-- C9, amended: `get_recent_memories` with `minutes = 0` keeps exactly the
entries timestamped at or after the query instant, so it returns the empty
list whenever every entry of the consulted state is strictly older than the
query instant (which is how entries look an instant after being stored, but
not at the very instant of the store). -/
theorem minutes_zero_empty_for_older_entries (st : AgentMemoryState) (now : Int)
    (queryOk : Bool) (uid : Option String) (limit : Nat) (types : List String)
    (h1 : ∀ m ∈ st.mongo_collection, m.timestamp < now)
    (h2 : ∀ m ∈ st.memory_fallback, m.timestamp < now) :
    get_recent_memories st now queryOk uid 0 limit types = [] := by
  have hcut : now - (0 : Int) * 60 = now := by ring
  unfold get_recent_memories
  rw [hcut]
  by_cases hb : (st.mongodb_available && queryOk) = true
  · rw [if_pos hb]
    unfold queryMongoTier
    rw [filter_query_nil _ _ h1]
    rw [show sortByTimestampDesc [] = [] from rfl]
    exact List.take_nil
  · rw [if_neg hb]
    unfold queryFallbackTier
    rw [filter_fallback_nil _ _ h2]
    by_cases hty : (!types.isEmpty) = true
    · rw [if_pos hty, List.filter_nil]
      rw [show sortByTimestampDesc [] = [] from rfl]
      exact List.take_nil
    · rw [if_neg hty]
      rw [show sortByTimestampDesc [] = [] from rfl]
      exact List.take_nil

/-- Closed instance of `minutes_zero_empty_for_older_entries`: one fallback
entry five seconds old, queried with a zero-minute window, yields nothing. -/
theorem minutes_zero_empty_for_older_entries_witness :
    get_recent_memories
        ⟨false, [], [⟨some "u", some "s", -5, "command", none, [], 86400, "f1"⟩],
          none, some "u", none⟩ 0 false (some "u") 0 10 [] = [] :=
  minutes_zero_empty_for_older_entries
    ⟨false, [], [⟨some "u", some "s", -5, "command", none, [], 86400, "f1"⟩],
      none, some "u", none⟩ 0 false (some "u") 10 [] (by decide) (by decide)

/-- Closed instance of `store_never_raises_returns_id`: with MongoDB
unavailable, storing into a one-entry fallback list returns the fresh uuid
and keeps the list capped. -/
theorem store_never_raises_returns_id_witness :
    (store ⟨false, [], [], none, some "u", none⟩ 0 false "m1" "f1"
        MemoryType.COMMAND [("command", CVal.str "hi")] none none (some "u")
        none).2 = some "f1"
    ∧ (store ⟨false, [], [], none, some "u", none⟩ 0 false "m1" "f1"
        MemoryType.COMMAND [("command", CVal.str "hi")] none none (some "u")
        none).1.memory_fallback.length ≤ 100 :=
  ⟨((store_never_raises_returns_id ⟨false, [], [], none, some "u", none⟩ 0 false
      "m1" "f1" MemoryType.COMMAND [("command", CVal.str "hi")] none none
      (some "u") none).2 (Or.inl rfl)).1,
   ((store_never_raises_returns_id ⟨false, [], [], none, some "u", none⟩ 0 false
      "m1" "f1" MemoryType.COMMAND [("command", CVal.str "hi")] none none
      (some "u") none).2 (Or.inl rfl)).2.2.2⟩

/-- C5, counterexample: with a memory state for which `get_context_for_agent`
(15-minute window, 5 entries) renders a non-empty labeled context block, the
agent node still hands the capability set the raw content of the last
`BaseMessage`, with no context block prepended (the output, produced here with
the identity agent, does not contain the `[Recent Activity]` label). -/
theorem agent_node_does_not_prepend_context :
    get_context_for_agent
        ⟨false, [], [⟨some "u", some "s", 0, "command", none,
          [("command", CVal.str "hi")], 86400, "f1"⟩], none, some "u", none⟩
        0 false (some "Music") true 15 5
      = "[Recent Activity]\n• User asked: \"hi\"\n"
    ∧ agent_node
        ⟨false, [], [⟨some "u", some "s", 0, "command", none,
          [("command", CVal.str "hi")], 86400, "f1"⟩], none, some "u", none⟩
        (fun s => s) "Music" [GMessage.base "play jazz"]
      = .ok [GMessage.tupleMsg "ai" "(Music agent): play jazz"]
    ∧ containsSub "[Recent Activity]".toList "(Music agent): play jazz".toList
      = false := by
  refine ⟨?_, by rfl, by decide⟩
  decide

/-- C5, amended: the agent node never consults the Memory Store before
invoking the capability set — its behavior is the same for every memory
state, and it invokes the agent on the content of the last `BaseMessage` of
the graph state unmodified (`get_context_for_agent`, with its 15-minute / 5
entry defaults, is defined in the memory service but has no caller). -/
theorem agent_node_ignores_memory (mem mem2 : AgentMemoryState)
    (invoke : String → String) (agent_name : String) (state : List GMessage) :
    agent_node mem invoke agent_name state = agent_node mem2 invoke agent_name state
    ∧ (∀ m, lastBaseMessage state = some m →
        agent_node mem invoke agent_name state
          = .ok [GMessage.tupleMsg "ai"
              ("(" ++ agent_name ++ " agent): " ++ invoke m.text)]) := by
  refine ⟨rfl, fun m hm => ?_⟩
  unfold agent_node
  rw [hm]

/-- Closed instance of `agent_node_ignores_memory`: two different memory
states, one holding recent activity, produce the same agent invocation. -/
theorem agent_node_ignores_memory_witness :
    agent_node
        ⟨false, [], [⟨some "u", some "s", 0, "command", none,
          [("command", CVal.str "hi")], 86400, "f1"⟩], none, some "u", none⟩
        (fun s => s) "Music" [GMessage.base "play jazz"]
      = agent_node ⟨false, [], [], none, none, none⟩ (fun s => s) "Music"
          [GMessage.base "play jazz"]
    ∧ agent_node
        ⟨false, [], [⟨some "u", some "s", 0, "command", none,
          [("command", CVal.str "hi")], 86400, "f1"⟩], none, some "u", none⟩
        (fun s => s) "Music" [GMessage.base "play jazz"]
      = .ok [GMessage.tupleMsg "ai" ("(" ++ "Music" ++ " agent): "
          ++ (fun s => s) "play jazz")] :=
  ⟨(agent_node_ignores_memory
      ⟨false, [], [⟨some "u", some "s", 0, "command", none,
        [("command", CVal.str "hi")], 86400, "f1"⟩], none, some "u", none⟩
      ⟨false, [], [], none, none, none⟩ (fun s => s) "Music"
      [GMessage.base "play jazz"]).1,
   (agent_node_ignores_memory
      ⟨false, [], [⟨some "u", some "s", 0, "command", none,
        [("command", CVal.str "hi")], 86400, "f1"⟩], none, some "u", none⟩
      ⟨false, [], [], none, none, none⟩ (fun s => s) "Music"
      [GMessage.base "play jazz"]).2 (GMessage.base "play jazz") rfl⟩

/-- C6, counterexample: MongoDB is reachable but the `insert_one` of this
`store` call raises, so the entry lands in the in-process fallback list and
`store` still returns an id; a subsequent `get_recent_memories` call for the
same user whose MongoDB `find` succeeds reads only the durable tier, so the
round trip fails even with a covering window and ample limit — while a read
that falls back (third conjunct) does see the entry. -/
theorem roundtrip_lost_across_tiers :
    (store ⟨true, [], [], none, some "u", none⟩ 0 false "m1" "f1"
        MemoryType.COMMAND [("command", CVal.str "jazz")] none none (some "u")
        none).2 = some "f1"
    ∧ get_recent_memories
        (store ⟨true, [], [], none, some "u", none⟩ 0 false "m1" "f1"
          MemoryType.COMMAND [("command", CVal.str "jazz")] none none (some "u")
          none).1 0 true (some "u") 30 100 [MemoryType.COMMAND] = []
    ∧ (get_recent_memories
        (store ⟨true, [], [], none, some "u", none⟩ 0 false "m1" "f1"
          MemoryType.COMMAND [("command", CVal.str "jazz")] none none (some "u")
          none).1 0 false (some "u") 30 100 [MemoryType.COMMAND]).any
        (fun m => m.content.lookup "command" == some (CVal.str "jazz")) = true := by
  decide

/-- C6, amended: the round trip holds whenever the write and the subsequent
read use the same tier — both durable (the insert and the later find both
succeed) or both the in-process fallback: with a window covering the stored
timestamp and a limit of at least either tier size plus one,
`get_recent_memories` for the same user with `memory_types = [COMMAND]`
returns the stored entry with its command string unchanged.  When the write
falls back but the read hits the durable tier, the entry is missed
(`roundtrip_lost_across_tiers`). -/
theorem store_roundtrip_same_tier (st : AgentMemoryState) (now now2 : Int)
    (insertOk queryOk : Bool) (mongoId uuid : String) (X : String)
    (user agent sid : Option String) (ttl : Option Int)
    (minutes : Int) (limit : Nat)
    (htier : (st.mongodb_available && insertOk) = (st.mongodb_available && queryOk))
    (hwin : now2 - minutes * 60 ≤ now)
    (hlim1 : st.mongo_collection.length + 1 ≤ limit)
    (hlim2 : st.memory_fallback.length + 1 ≤ limit) :
    ((get_recent_memories
        (store st now insertOk mongoId uuid MemoryType.COMMAND
          [("command", CVal.str X)] agent sid user ttl).1
        now2 queryOk user minutes limit [MemoryType.COMMAND]).any
      (fun m => m.content.lookup "command" == some (CVal.str X))) = true := by
  by_cases hA : (st.mongodb_available && insertOk) = true
  · have hQ : (st.mongodb_available && queryOk) = true := by
      rw [← htier]; exact hA
    have hstore : store st now insertOk mongoId uuid MemoryType.COMMAND
        [("command", CVal.str X)] agent sid user ttl
        = ({ st with mongo_collection := st.mongo_collection
            ++ [mkDoc st now mongoId MemoryType.COMMAND [("command", CVal.str X)]
                agent sid user ttl] }, some mongoId) := by
      unfold store
      rw [if_pos hA]
    unfold get_recent_memories
    simp only [hstore]
    rw [if_pos hQ]
    unfold queryMongoTier
    simp only []
    apply List.any_eq_true.mpr
    refine ⟨mkDoc st now mongoId MemoryType.COMMAND [("command", CVal.str X)]
      agent sid user ttl, ?_, by simp [mkDoc, List.lookup]⟩
    apply mem_sortTake_of_le
    · have hle := List.length_filter_le
        (matchesQuery (pyOrStr (pyOrStr user st.current_user_id) st.context_user_id)
          (now2 - minutes * 60) [MemoryType.COMMAND])
        (st.mongo_collection
          ++ [mkDoc st now mongoId MemoryType.COMMAND [("command", CVal.str X)]
              agent sid user ttl])
      simp only [List.length_append, List.length_cons, List.length_nil] at hle
      omega
    · apply List.mem_filter.mpr
      refine ⟨List.mem_append.mpr (Or.inr (List.mem_singleton.mpr rfl)), ?_⟩
      unfold matchesQuery
      simp [mkDoc, MemoryType.COMMAND, hwin]
  · have hQ : ¬((st.mongodb_available && queryOk) = true) := by
      rw [← htier]; exact hA
    have hstore : store st now insertOk mongoId uuid MemoryType.COMMAND
        [("command", CVal.str X)] agent sid user ttl
        = ({ st with memory_fallback := capFallback (st.memory_fallback
            ++ [mkDoc st now uuid MemoryType.COMMAND [("command", CVal.str X)]
                agent sid user ttl]) }, some uuid) := by
      unfold store
      rw [if_neg hA]
    unfold get_recent_memories
    simp only [hstore]
    rw [if_neg hQ]
    unfold queryFallbackTier
    simp only []
    rw [if_pos (show (!(List.isEmpty [MemoryType.COMMAND])) = true from by decide)]
    apply List.any_eq_true.mpr
    refine ⟨mkDoc st now uuid MemoryType.COMMAND [("command", CVal.str X)]
      agent sid user ttl, ?_, by simp [mkDoc, List.lookup]⟩
    apply mem_sortTake_of_le
    · have hle1 := List.length_filter_le
        (fun m => [MemoryType.COMMAND].contains m.type)
        ((capFallback (st.memory_fallback
          ++ [mkDoc st now uuid MemoryType.COMMAND [("command", CVal.str X)]
              agent sid user ttl])).filter
          (fun m => m.user_id
              == pyOrStr (pyOrStr user st.current_user_id) st.context_user_id
            && decide ((now2 - minutes * 60) ≤ m.timestamp)))
      have hle2 := List.length_filter_le
        (fun m => m.user_id
            == pyOrStr (pyOrStr user st.current_user_id) st.context_user_id
          && decide ((now2 - minutes * 60) ≤ m.timestamp))
        (capFallback (st.memory_fallback
          ++ [mkDoc st now uuid MemoryType.COMMAND [("command", CVal.str X)]
              agent sid user ttl]))
      have hle3 := capFallback_length_le (st.memory_fallback
        ++ [mkDoc st now uuid MemoryType.COMMAND [("command", CVal.str X)]
            agent sid user ttl])
      simp only [List.length_append, List.length_cons, List.length_nil] at hle3
      omega
    · apply List.mem_filter.mpr
      refine ⟨List.mem_filter.mpr ⟨mem_capFallback_concat _ _, ?_⟩, ?_⟩
      · simp [mkDoc, hwin]
      · simp [mkDoc, MemoryType.COMMAND]

/-- Closed instance of `store_roundtrip_same_tier`: store and read through
the fallback tier round-trip the command string "jazz". -/
theorem store_roundtrip_same_tier_witness :
    ((get_recent_memories
        (store ⟨false, [], [], none, some "u", none⟩ 0 false "m1" "f1"
          MemoryType.COMMAND [("command", CVal.str "jazz")] none none (some "u")
          none).1 0 false (some "u") 30 10 [MemoryType.COMMAND]).any
      (fun m => m.content.lookup "command" == some (CVal.str "jazz"))) = true :=
  store_roundtrip_same_tier ⟨false, [], [], none, some "u", none⟩ 0 0 false false
    "m1" "f1" "jazz" (some "u") none none none 30 10 rfl (by decide) (by decide)
    (by decide)

/-- The loop guard keeps `turn_count` at or below `max_turns`. -/
theorem convLoopF_tc_le (route : String → String) (cap : Nat → Option String)
    (maxTurns : Nat) :
    ∀ (fuel : Nat) (history : List String) (tc i : Nat)
      (routed : List (List String)) (spoken : List String),
      tc ≤ maxTurns →
      (convLoopF route cap maxTurns fuel history tc i routed spoken).turn_count ≤ maxTurns
  | 0, _, _, _, _, _, h => h
  | fuel + 1, history, tc, i, routed, spoken, h => by
      simp only [convLoopF]
      by_cases htc : tc < maxTurns
      · rw [if_pos htc]
        by_cases hfu : is_follow_up_question (some (route (joinHistory history))) = true
        · rw [if_pos hfu]
          by_cases hcap : (!pyTruthyStr (cap i)) = true
          · rw [if_pos hcap]; exact h
          · rw [if_neg hcap]
            by_cases hex : hasExitPhrase ((cap i).getD "") = true
            · rw [if_pos hex]; exact h
            · rw [if_neg hex]
              exact convLoopF_tc_le route cap maxTurns fuel
                (history ++ [(cap i).getD ""]) (tc + 1) (i + 1) _ _ htc
        · rw [if_neg hfu]; exact h
      · rw [if_neg htc]; exact h

/-- A loop run that ends at the turn bound has `turn_count = max_turns`. -/
theorem convLoopF_turnLimit_tc (route : String → String) (cap : Nat → Option String)
    (maxTurns : Nat) :
    ∀ (fuel : Nat) (history : List String) (tc i : Nat)
      (routed : List (List String)) (spoken : List String),
      tc ≤ maxTurns → maxTurns ≤ fuel + tc →
      (convLoopF route cap maxTurns fuel history tc i routed spoken).reason = .turnLimit →
      (convLoopF route cap maxTurns fuel history tc i routed spoken).turn_count = maxTurns
  | 0, _, tc, _, _, _, h, hf, _ => show tc = maxTurns by omega
  | fuel + 1, history, tc, i, routed, spoken, h, hf, hr => by
      simp only [convLoopF] at hr ⊢
      by_cases htc : tc < maxTurns
      · rw [if_pos htc] at hr ⊢
        by_cases hfu : is_follow_up_question (some (route (joinHistory history))) = true
        · rw [if_pos hfu] at hr ⊢
          by_cases hcap : (!pyTruthyStr (cap i)) = true
          · rw [if_pos hcap] at hr; simp at hr
          · rw [if_neg hcap] at hr ⊢
            by_cases hex : hasExitPhrase ((cap i).getD "") = true
            · rw [if_pos hex] at hr; simp at hr
            · rw [if_neg hex] at hr ⊢
              exact convLoopF_turnLimit_tc route cap maxTurns fuel
                (history ++ [(cap i).getD ""]) (tc + 1) (i + 1) _ _ htc (by omega) hr
        · rw [if_neg hfu] at hr; simp at hr
      · rw [if_neg htc]
        show tc = maxTurns
        omega

/-- A loop run that ends for any other reason stopped strictly below the
bound. -/
theorem convLoopF_other_tc_lt (route : String → String) (cap : Nat → Option String)
    (maxTurns : Nat) :
    ∀ (fuel : Nat) (history : List String) (tc i : Nat)
      (routed : List (List String)) (spoken : List String),
      (convLoopF route cap maxTurns fuel history tc i routed spoken).reason ≠ .turnLimit →
      (convLoopF route cap maxTurns fuel history tc i routed spoken).turn_count < maxTurns
  | 0, _, _, _, _, _, hr => absurd rfl hr
  | fuel + 1, history, tc, i, routed, spoken, hr => by
      simp only [convLoopF] at hr ⊢
      by_cases htc : tc < maxTurns
      · rw [if_pos htc] at hr ⊢
        by_cases hfu : is_follow_up_question (some (route (joinHistory history))) = true
        · rw [if_pos hfu] at hr ⊢
          by_cases hcap : (!pyTruthyStr (cap i)) = true
          · rw [if_pos hcap]; exact htc
          · rw [if_neg hcap] at hr ⊢
            by_cases hex : hasExitPhrase ((cap i).getD "") = true
            · rw [if_pos hex]; exact htc
            · rw [if_neg hex] at hr ⊢
              exact convLoopF_other_tc_lt route cap maxTurns fuel
                (history ++ [(cap i).getD ""]) (tc + 1) (i + 1) _ _ hr
        · rw [if_neg hfu]; exact htc
      · rw [if_neg htc] at hr
        exact absurd rfl hr

/-- Counting: every loop iteration routes exactly once, so the number of
routed turns, the growth of `turn_count`, and the end reason are linked. -/
theorem convLoopF_routed_count (route : String → String) (cap : Nat → Option String)
    (maxTurns : Nat) :
    ∀ (fuel : Nat) (history : List String) (tc i : Nat)
      (routed : List (List String)) (spoken : List String),
      (convLoopF route cap maxTurns fuel history tc i routed spoken).routed.length + tc
        + (if (convLoopF route cap maxTurns fuel history tc i routed spoken).reason
              = .turnLimit then 1 else 0)
        = routed.length
          + (convLoopF route cap maxTurns fuel history tc i routed spoken).turn_count + 1
  | 0, _, tc, _, routed, _ => by
      simp [convLoopF]
  | fuel + 1, history, tc, i, routed, spoken => by
      simp only [convLoopF]
      by_cases htc : tc < maxTurns
      · simp only [if_pos htc]
        by_cases hfu : is_follow_up_question (some (route (joinHistory history))) = true
        · simp only [if_pos hfu]
          by_cases hcap : (!pyTruthyStr (cap i)) = true
          · simp only [if_pos hcap]
            show (routed ++ [history]).length + tc
                + (if (EndReason.noFollowup = EndReason.turnLimit) then 1 else 0)
                = routed.length + tc + 1
            rw [if_neg (by decide)]
            simp only [List.length_append, List.length_cons, List.length_nil]
            omega
          · simp only [if_neg hcap]
            by_cases hex : hasExitPhrase ((cap i).getD "") = true
            · simp only [if_pos hex]
              show (routed ++ [history]).length + tc
                  + (if (EndReason.cancelled = EndReason.turnLimit) then 1 else 0)
                  = routed.length + tc + 1
              rw [if_neg (by decide)]
              simp only [List.length_append, List.length_cons, List.length_nil]
              omega
            · simp only [if_neg hex]
              have ih := convLoopF_routed_count route cap maxTurns fuel
                (history ++ [(cap i).getD ""]) (tc + 1) (i + 1) (routed ++ [history])
                (speakIfNonempty spoken (route (joinHistory history)))
              rw [List.length_append, List.length_cons, List.length_nil] at ih
              by_cases hr : (convLoopF route cap maxTurns fuel
                  (history ++ [(cap i).getD ""]) (tc + 1) (i + 1)
                  (routed ++ [history])
                  (speakIfNonempty spoken (route (joinHistory history)))).reason
                  = .turnLimit
              · rw [if_pos hr] at ih ⊢; omega
              · rw [if_neg hr] at ih ⊢; omega
        · simp only [if_neg hfu]
          show (routed ++ [history]).length + tc
              + (if (EndReason.complete = EndReason.turnLimit) then 1 else 0)
              = routed.length + tc + 1
          rw [if_neg (by decide)]
          simp only [List.length_append, List.length_cons, List.length_nil]
          omega
      · simp only [if_neg htc]
        show routed.length + tc
            + (if (EndReason.turnLimit = EndReason.turnLimit) then 1 else 0)
            = routed.length + tc + 1
        rw [if_pos rfl]

/-- In a run that ends at the turn bound, every history snapshot handed to the
router is a strict prefix of the final history: the follow-up captured by the
last continuing iteration was appended but never routed. -/
theorem convLoopF_routed_prefixes (route : String → String) (cap : Nat → Option String)
    (maxTurns : Nat) :
    ∀ (fuel : Nat) (history : List String) (tc i : Nat)
      (routed : List (List String)) (spoken : List String),
      (convLoopF route cap maxTurns fuel history tc i routed spoken).reason = .turnLimit →
      (∀ g ∈ routed, g <+: history ∧ g.length < history.length) →
      ∀ g ∈ (convLoopF route cap maxTurns fuel history tc i routed spoken).routed,
        g <+: (convLoopF route cap maxTurns fuel history tc i routed spoken).history
        ∧ g.length
          < (convLoopF route cap maxTurns fuel history tc i routed spoken).history.length
  | 0, _, _, _, _, _, _, hpre => hpre
  | fuel + 1, history, tc, i, routed, spoken, hr, hpre => by
      simp only [convLoopF] at hr ⊢
      by_cases htc : tc < maxTurns
      · rw [if_pos htc] at hr ⊢
        by_cases hfu : is_follow_up_question (some (route (joinHistory history))) = true
        · rw [if_pos hfu] at hr ⊢
          by_cases hcap : (!pyTruthyStr (cap i)) = true
          · rw [if_pos hcap] at hr; simp at hr
          · rw [if_neg hcap] at hr ⊢
            by_cases hex : hasExitPhrase ((cap i).getD "") = true
            · rw [if_pos hex] at hr; simp at hr
            · rw [if_neg hex] at hr ⊢
              refine convLoopF_routed_prefixes route cap maxTurns fuel
                (history ++ [(cap i).getD ""]) (tc + 1) (i + 1) _ _ hr ?_
              intro g hg
              rcases List.mem_append.mp hg with hg | hg
              · obtain ⟨hp, hl⟩ := hpre g hg
                refine ⟨hp.trans (List.prefix_append _ _), ?_⟩
                rw [List.length_append, List.length_cons, List.length_nil]
                omega
              · rcases List.mem_singleton.mp hg with rfl
                refine ⟨List.prefix_append _ _, ?_⟩
                rw [List.length_append, List.length_cons, List.length_nil]
                omega
        · rw [if_neg hfu] at hr; simp at hr
      · rw [if_neg htc] at hr ⊢
        exact hpre

/-- C1: in every conversation, the number of routed turns never exceeds
`max_turns`; when the loop ends at the bound, `turn_count` equals `max_turns`
and each routed history is a strict prefix of the final history — the last
captured follow-up sits in the final history but was never routed. -/
theorem conversation_bounded_by_max_turns (route : String → String)
    (cap : Nat → Option String) (maxTurns : Nat) (command : String) :
    (run_conversation route cap maxTurns command).turn_count ≤ maxTurns
    ∧ (run_conversation route cap maxTurns command).routed.length ≤ maxTurns
    ∧ ((run_conversation route cap maxTurns command).reason = .turnLimit →
        (run_conversation route cap maxTurns command).turn_count = maxTurns
        ∧ ∀ g ∈ (run_conversation route cap maxTurns command).routed,
            g <+: (run_conversation route cap maxTurns command).history
            ∧ g ≠ (run_conversation route cap maxTurns command).history) := by
  unfold run_conversation
  have h1 := convLoopF_tc_le route cap maxTurns maxTurns [command] 0 0 [] []
    (Nat.zero_le _)
  have h2 := convLoopF_turnLimit_tc route cap maxTurns maxTurns [command] 0 0 [] []
    (Nat.zero_le _) (by omega)
  have h3 := convLoopF_other_tc_lt route cap maxTurns maxTurns [command] 0 0 [] []
  have h4 := convLoopF_routed_count route cap maxTurns maxTurns [command] 0 0 [] []
  have h5 := convLoopF_routed_prefixes route cap maxTurns maxTurns [command] 0 0 [] []
  refine ⟨h1, ?_, fun hr => ⟨h2 hr, fun g hg => ?_⟩⟩
  · by_cases hr : (convLoopF route cap maxTurns maxTurns [command] 0 0 [] []).reason
        = .turnLimit
    · rw [if_pos hr] at h4
      have := h2 hr
      simp only [List.length_nil] at h4
      omega
    · rw [if_neg hr] at h4
      have := h3 hr
      simp only [List.length_nil] at h4
      omega
  · have hpre0 : ∀ g ∈ ([] : List (List String)), g <+: [command]
        ∧ g.length < [command].length := by
      intro g hg
      exact absurd hg (List.not_mem_nil g)
    obtain ⟨hp, hl⟩ := h5 hr hpre0 g hg
    refine ⟨hp, fun he => ?_⟩
    rw [he] at hl
    exact absurd hl (lt_irrefl _)

/-- Closed instance of `conversation_bounded_by_max_turns`: with every
response a follow-up question and every capture answered, a two-turn bound
still caps the routed turns at two. -/
theorem conversation_bounded_by_max_turns_witness :
    (run_conversation (fun _ => "what?") (fun _ => some "blue") 2 "hi").turn_count ≤ 2
    ∧ (run_conversation (fun _ => "what?") (fun _ => some "blue") 2 "hi").routed.length ≤ 2 :=
  ⟨(conversation_bounded_by_max_turns (fun _ => "what?") (fun _ => some "blue") 2 "hi").1,
   (conversation_bounded_by_max_turns (fun _ => "what?") (fun _ => some "blue") 2 "hi").2.1⟩

/-- C8: when the captured follow-up contains a cancellation phrase, the
iteration speaks the acknowledgement and ends the session at once: the
cancelled follow-up is neither appended to the history nor routed (the only
new routed snapshot is the pre-existing history, routed before the capture),
and `turn_count` is unchanged. -/
theorem cancellation_ends_session_immediately (route : String → String)
    (cap : Nat → Option String) (maxTurns fuel : Nat) (history : List String)
    (tc i : Nat) (routed : List (List String)) (spoken : List String) (f : String)
    (htc : tc < maxTurns) (hcap : cap i = some f)
    (hfu : is_follow_up_question (some (route (joinHistory history))) = true)
    (hexit : hasExitPhrase f = true) :
    convLoopF route cap maxTurns (fuel + 1) history tc i routed spoken
      = ⟨history, tc, routed ++ [history],
         speakIfNonempty spoken (route (joinHistory history)) ++ ["Okay, cancelled."],
         .cancelled⟩ := by
  have hne : (f == "") = false := by
    cases hfe : f == ""
    · rfl
    · rw [eq_of_beq hfe] at hexit
      exact absurd hexit (by decide)
  have htruthy : pyTruthyStr (cap i) = true := by
    rw [hcap]
    simp [pyTruthyStr, hne]
  have hget : (cap i).getD "" = f := by rw [hcap]; rfl
  simp only [convLoopF]
  rw [if_pos htc, if_pos hfu, htruthy, hget]
  rw [if_neg (by decide), if_pos hexit]

/-- Closed instance of `cancellation_ends_session_immediately`: a follow-up
"cancel" after the question "what?" ends the loop with the acknowledgement
spoken, history `["hi"]` intact and `turn_count` still zero. -/
theorem cancellation_ends_session_immediately_witness :
    convLoopF (fun _ => "what?") (fun _ => some "cancel") 5 5 ["hi"] 0 0 [] []
      = ⟨["hi"], 0, [["hi"]], ["what?", "Okay, cancelled."], .cancelled⟩ :=
  cancellation_ends_session_immediately (fun _ => "what?") (fun _ => some "cancel")
    5 4 ["hi"] 0 0 [] [] "cancel" (by decide) rfl (by decide) (by decide)

end Sentinel
